import Mathlib

set_option maxHeartbeats 1000000
set_option maxRecDepth 100000

/-!
Verification development for the AI-Context repository's CLI fetch pipeline.
The definitions below are a shallow embedding of `src/cli.js` (the shipped
CLI): the static `STANDARDS` catalog, the `fetchFile` helper, and the body of
`mainFetch` (selection guard, per-entry fetch/combine loop, and the run
summary accumulator).  The older draft catalog from `src/unnamed/part_000`
is embedded as `STANDARDS_OLD` where a claim refers to it.
-/

/-- Result of one `fetchFile` call as `mainFetch` sees it: `fetchFile` in
`src/cli.js` (lines 49-61) returns the response text on success and `null`
(here `failure`) when the request threw or the response status was non-2xx. -/
inductive FetchResult where
  | success (content : String)
  | failure
deriving DecidableEq, Repr

/-- One entry of the `STANDARDS` table in `src/cli.js` (lines 10-47). -/
structure CatalogEntry where
  key : String
  name : String
  description : String
  files : List String
  outputFile : String
deriving DecidableEq, Repr

/-- The static `STANDARDS` catalog of `src/cli.js` (lines 10-47), in
insertion order. -/
def STANDARDS : List CatalogEntry :=
  [⟨"coding", "Coding Standards",
    "Code conventions, file naming, TypeScript guidelines",
    ["coding-rule/CODING_STANDART.md"], "coding-standards.md"⟩,
   ⟨"design", "Design Standards",
    "UI/UX, branding, design system guidelines",
    ["design/DESIGN_STANDARDS.md"], "design-standards.md"⟩,
   ⟨"seo", "SEO Standards",
    "SEO best practices, meta tags, structured data",
    ["seo/SEO_STANDARDS.md"], "seo-standards.md"⟩,
   ⟨"accessibility", "Accessibility Standards",
    "WCAG compliance, a11y guidelines",
    ["accessibility/ACCESSIBILITY_STANDARDS.md"], "accessibility-standards.md"⟩,
   ⟨"content", "Content Guidelines",
    "Copywriting, tone of voice, content structure",
    ["content/CONTENT_GUIDELINES.md"], "content-guidelines.md"⟩,
   ⟨"performance", "Performance Standards",
    "Web vitals, optimization, loading strategies",
    ["performance/PERFORMANCE_STANDARDS.md"], "performance-standards.md"⟩]

/-- One entry of the `STANDARDS` table of the older CLI draft in
`src/unnamed/part_000` (lines 10-53); that table has no `outputFile` field. -/
structure OldCatalogEntry where
  key : String
  name : String
  description : String
  files : List String
deriving DecidableEq, Repr

/-- The static `STANDARDS` catalog of the older draft in
`src/unnamed/part_000` (lines 10-53), in insertion order. -/
def STANDARDS_OLD : List OldCatalogEntry :=
  [⟨"all", "All Standards (Combined)", "Fetch all standards in one file",
    ["coding-rule/CODING_STANDART.md", "design/DESIGN_STANDARDS.md",
     "seo/SEO_STANDARDS.md", "accessibility/ACCESSIBILITY_STANDARDS.md",
     "content/CONTENT_GUIDELINES.md", "performance/PERFORMANCE_STANDARDS.md"]⟩,
   ⟨"coding", "Coding Standards",
    "Code conventions, file naming, TypeScript guidelines",
    ["coding-rule/CODING_STANDART.md"]⟩,
   ⟨"design", "Design Standards",
    "UI/UX, branding, design system guidelines",
    ["design/DESIGN_STANDARDS.md"]⟩,
   ⟨"seo", "SEO Standards",
    "SEO best practices, meta tags, structured data",
    ["seo/SEO_STANDARDS.md"]⟩,
   ⟨"accessibility", "Accessibility Standards",
    "WCAG compliance, a11y guidelines",
    ["accessibility/ACCESSIBILITY_STANDARDS.md"]⟩,
   ⟨"content", "Content Guidelines",
    "Copywriting, tone of voice, content structure",
    ["content/CONTENT_GUIDELINES.md"]⟩,
   ⟨"performance", "Performance Standards",
    "Web vitals, optimization, loading strategies",
    ["performance/PERFORMANCE_STANDARDS.md"]⟩]

/-- The fixed remote base, `GITHUB_RAW_BASE` in `src/cli.js` line 8. -/
def GITHUB_RAW_BASE : String :=
  "https://raw.githubusercontent.com/Mahusaa/Database-Readme/main"

/-- The 80-character rule `'='.repeat(80)` used by the separator block in
`src/cli.js` lines 118-120. -/
def rule80 : String :=
  String.mk (List.replicate 80 '=')

/-- The separator block appended by `src/cli.js` lines 118-120 after a
fetched part when the entry has more than one source file: a blank line,
an 80-character rule, a `FILE:` label line carrying the part's path,
another rule, and a blank line. -/
def sepBlock (file : String) : String :=
  "\n\n" ++ rule80 ++ "\n" ++ "FILE: " ++ file ++ "\n" ++ rule80 ++ "\n\n"

/-- The mutable per-entry state of the inner loop of `mainFetch`
(`src/cli.js` lines 108-123): the accumulated `combinedContent`, the
`hasContent` flag, and the list of source paths whose fetch failed (each
failure is reported by `fetchFile` via `console.error`, in order). -/
structure EntryResult where
  combined : String
  hasContent : Bool
  failedSources : List String
deriving DecidableEq, Repr

/-- One iteration of the inner loop of `mainFetch` (`src/cli.js` lines
112-123): fetch the file; on a truthy (non-null, non-empty) result append
the content, set `hasContent`, and, when the entry has more than one source
file (`multi`), append the separator block; a `null` result leaves the
accumulator unchanged apart from recording the failed source.  Note the
JavaScript truthiness test `if (content)` also skips a successfully fetched
empty string. -/
def entryStep (multi : Bool) (fetch : String → FetchResult)
    (acc : EntryResult) (file : String) : EntryResult :=
  match fetch file with
  | .failure => { acc with failedSources := acc.failedSources ++ [file] }
  | .success c =>
    if c = "" then acc
    else
      { combined := acc.combined ++ c ++ (if multi then sepBlock file else ""),
        hasContent := true,
        failedSources := acc.failedSources }

/-- The whole inner loop of `mainFetch` (`src/cli.js` lines 108-123) for one
entry: fold `entryStep` over the entry's source files in catalog order,
starting from an empty accumulator; the separator test is
`standard.files.length > 1`. -/
def processEntry (fetch : String → FetchResult) (files : List String) :
    EntryResult :=
  files.foldl (entryStep (decide (1 < files.length)) fetch) ⟨"", false, []⟩

/-- The text one source file contributes to `combinedContent` in the inner
loop of `mainFetch`: its content followed by the separator block when the
entry is multi-source, and nothing when its fetch failed or returned an
empty string. -/
def contrib (multi : Bool) (fetch : String → FetchResult) (file : String) :
    String :=
  match fetch file with
  | .failure => ""
  | .success c => if c = "" then "" else c ++ (if multi then sepBlock file else "")

/-- In-order concatenation of the images of a list, used to state ordering
properties of the combined output. -/
def concatMap (g : String → String) : List String → String
  | [] => ""
  | f :: fs => g f ++ concatMap g fs

/-- Whether `fetchFile`'s result passes the truthiness test `if (content)`
in `src/cli.js` line 114. -/
def isTruthy : FetchResult → Bool
  | .success c => c ≠ ""
  | .failure => false

/-- Whether a fetch failed outright (`fetchFile` returned `null`). -/
def isFail : FetchResult → Bool
  | .success _ => false
  | .failure => true

/-- The successfully fetched parts of an entry, in source order, each paired
with its (truthy) content: exactly the parts that contribute text to
`combinedContent` in `src/cli.js` lines 114-121. -/
def successParts (fetch : String → FetchResult) (files : List String) :
    List (String × String) :=
  files.filterMap (fun f =>
    match fetch f with
    | .success c => if c = "" then none else some (f, c)
    | .failure => none)

/-- In-order concatenation of `content ++ separator` over a list of
(path, content) pairs, used to state the shape of a multi-source entry's
combined output. -/
def pairConcat : List (String × String) → String
  | [] => ""
  | (p, t) :: r => (t ++ sepBlock p) ++ pairConcat r

/-- Observable outcome of one `mainFetch` run (`src/cli.js` lines 63-153):
the process exit code, whether the cancellation notice was printed, the
fetched paths in request order, the files written (path and content, in
write order), and the summary counters `successCount`, `failCount`,
`savedFiles`. -/
structure RunOutcome where
  exitCode : Nat
  cancelled : Bool
  fetchCalls : List String
  writes : List (String × String)
  successCount : Nat
  failCount : Nat
  savedFiles : List String
deriving DecidableEq, Repr

/-- The state of a `mainFetch` run just after a non-empty selection passed
the guard at `src/cli.js` lines 83-86. -/
def initOutcome : RunOutcome :=
  { exitCode := 0, cancelled := false, fetchCalls := [], writes := [],
    successCount := 0, failCount := 0, savedFiles := [] }

/-- The lookup `STANDARDS[standardKey]` of `src/cli.js` line 105; the
catalog's keys are distinct, so the first match is the only one. -/
def findEntry (key : String) : Option CatalogEntry :=
  STANDARDS.find? (fun e => e.key == key)

/-- One iteration of the outer loop of `mainFetch` (`src/cli.js` lines
104-136): run the inner loop for the entry; if it produced content, write
the combined text to the entry's `outputFile`, record it in `savedFiles`
and bump `successCount`, else bump `failCount`.  A key absent from the
catalog leaves the state unchanged (the CLI only ever receives catalog
keys from the prompt). -/
def runEntryStep (fetch : String → FetchResult) (o : RunOutcome)
    (key : String) : RunOutcome :=
  match findEntry key with
  | none => o
  | some e =>
    let r := processEntry fetch e.files
    if r.hasContent then
      { o with fetchCalls := o.fetchCalls ++ e.files,
               writes := o.writes ++ [(e.outputFile, r.combined)],
               successCount := o.successCount + 1,
               savedFiles := o.savedFiles ++ [e.outputFile] }
    else
      { o with fetchCalls := o.fetchCalls ++ e.files,
               failCount := o.failCount + 1 }

/-- The observable behaviour of `mainFetch` (`src/cli.js` lines 63-153) as
a function of the fetch oracle and the keys returned by the multiselect
prompt: an empty or absent selection prints the cancellation notice and
exits with code 0 before any fetch or write (lines 83-86); otherwise the
outer loop runs over the selected keys in order and the function returns
normally, so the process ends with exit code 0. -/
def mainFetchRun (fetch : String → FetchResult) (keys : List String) :
    RunOutcome :=
  if keys.isEmpty then { initOutcome with cancelled := true }
  else keys.foldl (runEntryStep fetch) initOutcome

/-- Outcome of the single `fetch(url)` call inside `fetchFile`
(`src/cli.js` lines 49-61): a response with `response.ok` true, a response
with a non-2xx status (carrying `statusText`), or a transport-level error. -/
inductive HttpResponse where
  | ok (body : String)
  | notOk (statusText : String)
  | transportError (msg : String)
deriving DecidableEq, Repr

/-- The body of the `try` block of `fetchFile` (`src/cli.js` lines 51-56):
a non-2xx response throws `Failed to fetch <path>: <statusText>`, a
transport error propagates its own message, and an ok response yields the
body text. -/
def fetchAttempt (resp : HttpResponse) (filePath : String) :
    Except String String :=
  match resp with
  | .ok body => .ok body
  | .notOk st => .error ("Failed to fetch " ++ filePath ++ ": " ++ st)
  | .transportError msg => .error msg

/-- `fetchFile` of `src/cli.js` (lines 49-61) over an HTTP oracle: resolve
the path against `GITHUB_RAW_BASE`, issue the one request, catch any thrown
error (logging it) and return `null`, else return the text.  The second
component is the list of URLs requested during the call, which by the
code's structure is the single resolved URL. -/
def fetchFileModel (http : String → HttpResponse) (filePath : String) :
    Option String × List String :=
  let url := GITHUB_RAW_BASE ++ "/" ++ filePath
  ((match fetchAttempt (http url) filePath with
    | .ok body => some body
    | .error _ => none), [url])

/-- The source files of the catalog entry a selected key denotes (empty for
a key outside the catalog, which the prompt never produces). -/
def entryFiles (k : String) : List String :=
  ((findEntry k).map CatalogEntry.files).getD []

/-- The write `mainFetch` performs for one selected key (`src/cli.js` lines
125-130): the entry's `outputFile` paired with the combined content, when
the inner loop produced content; nothing otherwise. -/
def writeOf (fetch : String → FetchResult) (k : String) :
    Option (String × String) :=
  match findEntry k with
  | none => none
  | some e =>
    let r := processEntry fetch e.files
    if r.hasContent then some (e.outputFile, r.combined) else none

theorem entryStep_combined (multi : Bool) (fetch : String → FetchResult)
    (acc : EntryResult) (file : String) :
    (entryStep multi fetch acc file).combined
      = acc.combined ++ contrib multi fetch file := by
  unfold entryStep contrib
  cases h : fetch file with
  | failure => simp
  | success c =>
    by_cases hc : c = "" <;> simp [hc, String.append_assoc]

theorem entryStep_failed (multi : Bool) (fetch : String → FetchResult)
    (acc : EntryResult) (file : String) :
    (entryStep multi fetch acc file).failedSources
      = acc.failedSources ++ (if isFail (fetch file) then [file] else []) := by
  unfold entryStep isFail
  cases h : fetch file with
  | failure => simp
  | success c =>
    by_cases hc : c = "" <;> simp [hc]

theorem entryStep_hasContent (multi : Bool) (fetch : String → FetchResult)
    (acc : EntryResult) (file : String) :
    (entryStep multi fetch acc file).hasContent
      = (acc.hasContent || isTruthy (fetch file)) := by
  unfold entryStep isTruthy
  cases h : fetch file with
  | failure => simp
  | success c =>
    by_cases hc : c = "" <;> simp [hc]

theorem foldl_entry_combined (multi : Bool) (fetch : String → FetchResult) :
    ∀ (files : List String) (acc : EntryResult),
    (files.foldl (entryStep multi fetch) acc).combined
      = acc.combined ++ concatMap (contrib multi fetch) files := by
  intro files
  induction files with
  | nil => intro acc; simp [concatMap]
  | cons f fs ih =>
    intro acc
    rw [List.foldl_cons, ih, entryStep_combined]
    simp [concatMap, String.append_assoc]

theorem foldl_entry_failed (multi : Bool) (fetch : String → FetchResult) :
    ∀ (files : List String) (acc : EntryResult),
    (files.foldl (entryStep multi fetch) acc).failedSources
      = acc.failedSources ++ files.filter (fun f => isFail (fetch f)) := by
  intro files
  induction files with
  | nil => intro acc; simp
  | cons f fs ih =>
    intro acc
    rw [List.foldl_cons, ih, entryStep_failed]
    by_cases hf : isFail (fetch f) <;> simp [hf, List.filter_cons]

theorem foldl_entry_hasContent (multi : Bool) (fetch : String → FetchResult) :
    ∀ (files : List String) (acc : EntryResult),
    (files.foldl (entryStep multi fetch) acc).hasContent
      = (acc.hasContent || files.any (fun f => isTruthy (fetch f))) := by
  intro files
  induction files with
  | nil => intro acc; simp
  | cons f fs ih =>
    intro acc
    rw [List.foldl_cons, ih, entryStep_hasContent]
    simp [Bool.or_assoc]

theorem concatMap_contrib_eq_pairConcat (fetch : String → FetchResult) :
    ∀ files : List String,
    concatMap (contrib true fetch) files = pairConcat (successParts fetch files) := by
  intro files
  induction files with
  | nil => rfl
  | cons f fs ih =>
    cases h : fetch f with
    | failure =>
      have h1 : contrib true fetch f = "" := by simp [contrib, h]
      have h2 : successParts fetch (f :: fs) = successParts fetch fs := by
        simp [successParts, List.filterMap_cons, h]
      simp only [concatMap]
      rw [h1, h2, ih]
      simp
    | success c =>
      by_cases hc : c = ""
      · have h1 : contrib true fetch f = "" := by simp [contrib, h, hc]
        have h2 : successParts fetch (f :: fs) = successParts fetch fs := by
          simp [successParts, List.filterMap_cons, h, hc]
        simp only [concatMap]
        rw [h1, h2, ih]
        simp
      · have h1 : contrib true fetch f = c ++ sepBlock f := by
          simp [contrib, h, hc]
        have h2 : successParts fetch (f :: fs)
            = (f, c) :: successParts fetch fs := by
          simp [successParts, List.filterMap_cons, h, hc]
        simp only [concatMap]
        rw [h1, h2, ih]
        rfl

theorem pairConcat_getLast :
    ∀ (l : List (String × String)) (pt : String × String),
    l.getLast? = some pt → ∃ s, pairConcat l = s ++ sepBlock pt.1 := by
  intro l
  induction l with
  | nil => intro pt h; simp at h
  | cons a r ih =>
    intro pt h
    cases r with
    | nil =>
      simp at h
      subst h
      exact ⟨a.2, by simp [pairConcat]⟩
    | cons b r2 =>
      rw [List.getLast?_cons_cons] at h
      obtain ⟨s, hs⟩ := ih pt h
      refine ⟨(a.2 ++ sepBlock a.1) ++ s, ?_⟩
      rw [pairConcat, hs]
      simp [String.append_assoc]

theorem runEntryStep_exitCode (fetch : String → FetchResult)
    (o : RunOutcome) (key : String) :
    (runEntryStep fetch o key).exitCode = o.exitCode := by
  unfold runEntryStep
  cases h : findEntry key with
  | none => rfl
  | some e =>
    by_cases hc : (processEntry fetch e.files).hasContent <;> simp [hc]

theorem foldl_run_exitCode (fetch : String → FetchResult) :
    ∀ (keys : List String) (o : RunOutcome),
    (keys.foldl (runEntryStep fetch) o).exitCode = o.exitCode := by
  intro keys
  induction keys with
  | nil => intro o; rfl
  | cons k ks ih =>
    intro o
    rw [List.foldl_cons, ih, runEntryStep_exitCode]

theorem runEntryStep_fetchCalls (fetch : String → FetchResult)
    (o : RunOutcome) (key : String) :
    (runEntryStep fetch o key).fetchCalls = o.fetchCalls ++ entryFiles key := by
  unfold runEntryStep entryFiles
  cases h : findEntry key with
  | none => simp
  | some e =>
    by_cases hc : (processEntry fetch e.files).hasContent <;> simp [hc]

theorem foldl_run_fetchCalls (fetch : String → FetchResult) :
    ∀ (keys : List String) (o : RunOutcome),
    (keys.foldl (runEntryStep fetch) o).fetchCalls
      = o.fetchCalls ++ keys.flatMap entryFiles := by
  intro keys
  induction keys with
  | nil => intro o; simp
  | cons k ks ih =>
    intro o
    rw [List.foldl_cons, ih, runEntryStep_fetchCalls]
    simp [List.flatMap_cons]

theorem runEntryStep_writes (fetch : String → FetchResult)
    (o : RunOutcome) (key : String) :
    (runEntryStep fetch o key).writes
      = o.writes ++ (writeOf fetch key).toList := by
  unfold runEntryStep writeOf
  cases h : findEntry key with
  | none => simp
  | some e =>
    by_cases hc : (processEntry fetch e.files).hasContent <;> simp [hc]

theorem foldl_run_writes (fetch : String → FetchResult) :
    ∀ (keys : List String) (o : RunOutcome),
    (keys.foldl (runEntryStep fetch) o).writes
      = o.writes ++ keys.filterMap (writeOf fetch) := by
  intro keys
  induction keys with
  | nil => intro o; simp
  | cons k ks ih =>
    intro o
    rw [List.foldl_cons, ih, runEntryStep_writes]
    cases h : writeOf fetch k <;> simp [List.filterMap_cons, h]

theorem runEntryStep_counts (fetch : String → FetchResult)
    (o : RunOutcome) (k : String) (h : (findEntry k).isSome = true) :
    ((runEntryStep fetch o k).successCount + (runEntryStep fetch o k).failCount
      = o.successCount + o.failCount + 1)
    ∧ ((runEntryStep fetch o k).savedFiles.length + o.successCount
      = o.savedFiles.length + (runEntryStep fetch o k).successCount) := by
  obtain ⟨e, he⟩ := Option.isSome_iff_exists.mp h
  unfold runEntryStep
  rw [he]
  by_cases hc : (processEntry fetch e.files).hasContent <;> simp [hc] <;> omega

theorem foldl_run_counts (fetch : String → FetchResult) :
    ∀ (keys : List String) (o : RunOutcome),
    (∀ k ∈ keys, (findEntry k).isSome = true) →
    ((keys.foldl (runEntryStep fetch) o).successCount
        + (keys.foldl (runEntryStep fetch) o).failCount
      = o.successCount + o.failCount + keys.length)
    ∧ ((keys.foldl (runEntryStep fetch) o).savedFiles.length + o.successCount
      = o.savedFiles.length + (keys.foldl (runEntryStep fetch) o).successCount) := by
  intro keys
  induction keys with
  | nil => intro o _; exact ⟨rfl, rfl⟩
  | cons k ks ih =>
    intro o hv
    have hk : (findEntry k).isSome = true := hv k (List.mem_cons_self k ks)
    have hv2 : ∀ k2 ∈ ks, (findEntry k2).isSome = true :=
      fun k2 hm => hv k2 (List.mem_cons_of_mem k hm)
    rw [List.foldl_cons]
    obtain ⟨s1, s2⟩ := runEntryStep_counts fetch o k hk
    obtain ⟨h1, h2⟩ := ih (runEntryStep fetch o k) hv2
    refine ⟨?_, ?_⟩
    · rw [h1, List.length_cons]; omega
    · omega

/-- Fetch oracle used by concrete instances: path `a` yields text `A`,
path `b` yields text `B`, everything else fails. -/
def fetchAB : String → FetchResult := fun f =>
  if f = "a" then FetchResult.success "A"
  else if f = "b" then FetchResult.success "B" else FetchResult.failure

/-- Fetch oracle on which every retrieval fails. -/
def fetchNone : String → FetchResult := fun _ => FetchResult.failure

/-- Fetch oracle: path `a` fails outright, every other path succeeds with
the empty string. -/
def fetchEmptyB : String → FetchResult := fun f =>
  if f = "a" then FetchResult.failure else FetchResult.success ""

/-- Fetch oracle: path `b` yields text `B`, everything else fails. -/
def fetchBonly : String → FetchResult := fun f =>
  if f = "b" then FetchResult.success "B" else FetchResult.failure

/-- HTTP oracle answering every request with a non-2xx status. -/
def http404 : String → HttpResponse := fun _ => HttpResponse.notOk "Not Found"

/-- The first entry of the `STANDARDS` catalog of `src/cli.js`. -/
def codingEntry : CatalogEntry :=
  ⟨"coding", "Coding Standards",
   "Code conventions, file naming, TypeScript guidelines",
   ["coding-rule/CODING_STANDART.md"], "coding-standards.md"⟩

/-- Claim C1 (counterexample): the claim says a two-part combine places a
separator block labelled with `p2` (the second part's path) between `t1`
and `t2`.  On `src/cli.js` the separator follows each part, so the block
between the two texts is labelled with `p1`: for parts `(a, A)` and
`(b, B)` the combined output is exactly
`A ++ sepBlock a ++ B ++ sepBlock b`, and the claimed shape
`t1 ++ sepBlock p2 ++ t2` occurs nowhere in it. -/
theorem claim_C1_counterexample :
    (processEntry fetchAB ["a", "b"]).combined
      = "A" ++ sepBlock "a" ++ "B" ++ sepBlock "b"
    ∧ ¬ (("A" ++ sepBlock "b" ++ "B").data <:+:
         (processEntry fetchAB ["a", "b"]).combined.data) :=
  ⟨by decide, by decide⟩

/-- Claim C1 (amended): for every two-part input with non-empty texts, the
combined output contains `t1` before `t2`, with the separator block between
them labelled with `p1` (the path of the first part), and a trailing
separator block labelled with `p2` after `t2`. -/
theorem claim_C1_amended (fetch : String → FetchResult) (p1 p2 t1 t2 : String)
    (h1 : fetch p1 = FetchResult.success t1)
    (h2 : fetch p2 = FetchResult.success t2)
    (n1 : t1 ≠ "") (n2 : t2 ≠ "") :
    (processEntry fetch [p1, p2]).combined
      = t1 ++ sepBlock p1 ++ t2 ++ sepBlock p2 := by
  have e : processEntry fetch [p1, p2]
      = entryStep true fetch (entryStep true fetch ⟨"", false, []⟩ p1) p2 := rfl
  have s1 : entryStep true fetch ⟨"", false, []⟩ p1
      = ⟨t1 ++ sepBlock p1, true, []⟩ := by
    unfold entryStep
    rw [h1]
    simp [n1]
  have s2 : entryStep true fetch ⟨t1 ++ sepBlock p1, true, []⟩ p2
      = ⟨t1 ++ sepBlock p1 ++ t2 ++ sepBlock p2, true, []⟩ := by
    unfold entryStep
    rw [h2]
    simp [n2, String.append_assoc]
  rw [e, s1, s2]

/-- Witness for the amended claim C1 at parts `(a, A)` and `(b, B)`. -/
theorem claim_C1_witness :
    fetchAB "a" = FetchResult.success "A"
    ∧ fetchAB "b" = FetchResult.success "B"
    ∧ (processEntry fetchAB ["a", "b"]).combined
        = "A" ++ sepBlock "a" ++ "B" ++ sepBlock "b" :=
  ⟨by decide, by decide,
   claim_C1_amended fetchAB "a" "b" "A" "B" (by decide) (by decide)
     (by decide) (by decide)⟩

/-- Claim C2: for every single-part input whose fetch succeeded, the
combined output is the part's text exactly, with no separator block
injected (`src/cli.js` lines 112-123: the separator is only appended when
the entry has more than one source file). -/
theorem claim_C2 (fetch : String → FetchResult) (p t : String)
    (h : fetch p = FetchResult.success t) :
    (processEntry fetch [p]).combined = t := by
  have e : processEntry fetch [p]
      = entryStep false fetch ⟨"", false, []⟩ p := rfl
  rw [e]
  unfold entryStep
  rw [h]
  by_cases ht : t = ""
  · simp [ht]
  · simp [ht]

/-- Witness for claim C2 at part `(a, A)`. -/
theorem claim_C2_witness :
    fetchAB "a" = FetchResult.success "A"
    ∧ (processEntry fetchAB ["a"]).combined = "A" :=
  ⟨by decide, claim_C2 fetchAB "a" "A" (by decide)⟩

/-- Claim C3 (counterexample): the claim says the exit code is non-zero
when every selected entry failed to produce output.  `mainFetch` in
`src/cli.js` never sets a non-zero exit code after the download loop: with
key `coding` selected and every fetch failing, no file is written,
`successCount` is 0, `failCount` is 1, yet the run ends with exit code 0. -/
theorem claim_C3_counterexample :
    (mainFetchRun fetchNone ["coding"]).writes = []
    ∧ (mainFetchRun fetchNone ["coding"]).successCount = 0
    ∧ (mainFetchRun fetchNone ["coding"]).failCount = 1
    ∧ (mainFetchRun fetchNone ["coding"]).exitCode = 0 := by
  decide

/-- Claim C3 (amended): for every run in which at least one key was
selected, the completed run ends with exit code 0 regardless of how many
selected entries produced output; failures are reported only through the
summary counters. -/
theorem claim_C3_amended (fetch : String → FetchResult) (keys : List String)
    (h : keys ≠ []) : (mainFetchRun fetch keys).exitCode = 0 := by
  cases keys with
  | nil => exact absurd rfl h
  | cons k ks =>
    show ((k :: ks).foldl (runEntryStep fetch) initOutcome).exitCode = 0
    rw [foldl_run_exitCode]
    rfl

/-- Witness for the amended claim C3 on a one-key run where every fetch
fails. -/
theorem claim_C3_witness :
    (["coding"] : List String) ≠ []
    ∧ (mainFetchRun fetchNone ["coding"]).exitCode = 0 :=
  ⟨by decide, claim_C3_amended fetchNone ["coding"] (by decide)⟩

/-- Claim C4 (counterexample): the claim says an entry with one failing and
one succeeding source still produces output.  `src/cli.js` line 114 tests
the fetched content with JavaScript truthiness, so a successful fetch of an
empty file contributes nothing: with sources `a` (outright failure) and `b`
(success with empty content), `hasContent` stays false, the combined output
is empty and the entry is not written at all. -/
theorem claim_C4_counterexample :
    fetchEmptyB "a" = FetchResult.failure
    ∧ fetchEmptyB "b" = FetchResult.success ""
    ∧ ¬ ((processEntry fetchEmptyB ["a", "b"]).hasContent = true)
    ∧ (processEntry fetchEmptyB ["a", "b"]).combined = ""
    ∧ (processEntry fetchEmptyB ["a", "b"]).failedSources = ["a"] := by
  decide

/-- Claim C4 (amended): for every entry with exactly two source paths where
one fetch fails and the other succeeds with non-empty content, the entry
still produces output containing only the successful part's text (followed
by its separator block, the entry being multi-source), and exactly the one
failing source path is recorded as failed. -/
theorem claim_C4_amended (fetch : String → FetchResult) (p1 p2 t : String) :
    (fetch p1 = FetchResult.failure → fetch p2 = FetchResult.success t →
      t ≠ "" →
      (processEntry fetch [p1, p2]).hasContent = true
      ∧ (processEntry fetch [p1, p2]).combined = t ++ sepBlock p2
      ∧ (processEntry fetch [p1, p2]).failedSources = [p1])
    ∧ (fetch p1 = FetchResult.success t → t ≠ "" →
      fetch p2 = FetchResult.failure →
      (processEntry fetch [p1, p2]).hasContent = true
      ∧ (processEntry fetch [p1, p2]).combined = t ++ sepBlock p1
      ∧ (processEntry fetch [p1, p2]).failedSources = [p2]) := by
  have e : processEntry fetch [p1, p2]
      = entryStep true fetch (entryStep true fetch ⟨"", false, []⟩ p1) p2 := rfl
  constructor
  · intro h1 h2 ht
    have s1 : entryStep true fetch ⟨"", false, []⟩ p1 = ⟨"", false, [p1]⟩ := by
      unfold entryStep
      rw [h1]
      simp
    have s2 : entryStep true fetch ⟨"", false, [p1]⟩ p2
        = ⟨t ++ sepBlock p2, true, [p1]⟩ := by
      unfold entryStep
      rw [h2]
      simp [ht]
    rw [e, s1, s2]
    exact ⟨rfl, rfl, rfl⟩
  · intro h1 ht h2
    have s1 : entryStep true fetch ⟨"", false, []⟩ p1
        = ⟨t ++ sepBlock p1, true, []⟩ := by
      unfold entryStep
      rw [h1]
      simp [ht]
    have s2 : entryStep true fetch ⟨t ++ sepBlock p1, true, []⟩ p2
        = ⟨t ++ sepBlock p1, true, [p2]⟩ := by
      unfold entryStep
      rw [h2]
      simp
    rw [e, s1, s2]
    exact ⟨rfl, rfl, rfl⟩

/-- Witness for the amended claim C4: source `a` fails, source `b` yields
the non-empty text `B`. -/
theorem claim_C4_witness :
    (fetchBonly "a" = FetchResult.failure
      ∧ fetchBonly "b" = FetchResult.success "B" ∧ ("B" : String) ≠ "")
    ∧ (processEntry fetchBonly ["a", "b"]).combined = "B" ++ sepBlock "b"
    ∧ (processEntry fetchBonly ["a", "b"]).failedSources = ["a"] :=
  ⟨⟨by decide, by decide, by decide⟩,
   ((claim_C4_amended fetchBonly "a" "b" "B").1 (by decide) (by decide)
     (by decide)).2.1,
   ((claim_C4_amended fetchBonly "a" "b" "B").1 (by decide) (by decide)
     (by decide)).2.2⟩

/-- Claim C5: if the Selector returns no keys, the guard at `src/cli.js`
lines 83-86 fires: no fetch and no write occurs, the cancellation notice is
printed, and the process exits with code 0. -/
theorem claim_C5 (fetch : String → FetchResult) :
    (mainFetchRun fetch []).fetchCalls = []
    ∧ (mainFetchRun fetch []).writes = []
    ∧ (mainFetchRun fetch []).exitCode = 0
    ∧ (mainFetchRun fetch []).cancelled = true :=
  ⟨rfl, rfl, rfl, rfl⟩

/-- The value `fetchFile` hands back for each possible outcome of its one
HTTP request: the body on an ok response, `null` (here `none`) otherwise. -/
def responseContent : HttpResponse → Option String
  | .ok body => some body
  | .notOk _ => none
  | .transportError _ => none

theorem fetchFileModel_eval (http : String → HttpResponse) (p : String) :
    fetchFileModel http p
      = (responseContent (http (GITHUB_RAW_BASE ++ "/" ++ p)),
         [GITHUB_RAW_BASE ++ "/" ++ p]) := by
  simp only [fetchFileModel]
  cases http (GITHUB_RAW_BASE ++ "/" ++ p) <;> rfl

/-- Claim C6: one `fetchFile` call issues exactly one retrieval request
(the path resolved against `GITHUB_RAW_BASE`; no retry), and both a non-2xx
response and a transport-level error are returned as the failure value
`null` (here `none`) rather than propagated as an uncaught exception, while
an ok response yields its body. -/
theorem claim_C6 (http : String → HttpResponse) (p : String)
    (r : HttpResponse) (h : http (GITHUB_RAW_BASE ++ "/" ++ p) = r) :
    (fetchFileModel http p).2 = [GITHUB_RAW_BASE ++ "/" ++ p]
    ∧ (fetchFileModel http p).1 = responseContent r := by
  have hev := fetchFileModel_eval http p
  rw [h] at hev
  exact ⟨by rw [hev], by rw [hev]⟩

/-- Witness for claim C6 on an oracle answering every request with a
non-2xx status: the call returns `none` and requested exactly one URL. -/
theorem claim_C6_witness :
    http404 (GITHUB_RAW_BASE ++ "/" ++ "x") = HttpResponse.notOk "Not Found"
    ∧ (fetchFileModel http404 "x").1 = none
    ∧ (fetchFileModel http404 "x").2 = [GITHUB_RAW_BASE ++ "/" ++ "x"] :=
  ⟨rfl,
   (claim_C6 http404 "x" (HttpResponse.notOk "Not Found") rfl).2,
   (claim_C6 http404 "x" (HttpResponse.notOk "Not Found") rfl).1⟩

/-- Claim C7: selected entries are processed in the exact order the
Selector returned them, source paths within an entry are fetched in the
exact order listed in the catalog entry (the request trace is the in-order
concatenation of the selected entries' file lists), the files are written
in that same entry order, and each entry's combined output is the in-order
concatenation of its per-file contributions. -/
theorem claim_C7 (fetch : String → FetchResult) (keys : List String) :
    (mainFetchRun fetch keys).fetchCalls = keys.flatMap entryFiles
    ∧ (mainFetchRun fetch keys).writes = keys.filterMap (writeOf fetch)
    ∧ ∀ k e, k ∈ keys → findEntry k = some e →
        (processEntry fetch e.files).combined
          = concatMap (contrib (decide (1 < e.files.length)) fetch) e.files := by
  refine ⟨?_, ?_, ?_⟩
  · cases keys with
    | nil => rfl
    | cons k ks =>
      show ((k :: ks).foldl (runEntryStep fetch) initOutcome).fetchCalls = _
      rw [foldl_run_fetchCalls]
      simp [initOutcome]
  · cases keys with
    | nil => rfl
    | cons k ks =>
      show ((k :: ks).foldl (runEntryStep fetch) initOutcome).writes = _
      rw [foldl_run_writes]
      simp [initOutcome]
  · intro k e _ _
    unfold processEntry
    rw [foldl_entry_combined]
    simp

/-- Witness for claim C7 on the one-key selection `coding`. -/
theorem claim_C7_witness :
    "coding" ∈ (["coding"] : List String)
    ∧ findEntry "coding" = some codingEntry
    ∧ (mainFetchRun fetchNone ["coding"]).fetchCalls
        = ["coding-rule/CODING_STANDART.md"]
    ∧ (processEntry fetchNone codingEntry.files).combined
        = concatMap (contrib (decide (1 < codingEntry.files.length)) fetchNone)
            codingEntry.files :=
  ⟨by decide, by decide,
   ((claim_C7 fetchNone ["coding"]).1).trans (by decide),
   (claim_C7 fetchNone ["coding"]).2.2 "coding" codingEntry (by decide)
     (by decide)⟩

/-- Claim C8: in the static catalog of `src/cli.js` the keys are pairwise
distinct, every entry's file list is non-empty, and every entry's output
file name contains no path separator; in the older draft catalog of
`src/unnamed/part_000` (which has no output names) the keys are likewise
pairwise distinct and every file list is non-empty. -/
theorem claim_C8 :
    (STANDARDS.map CatalogEntry.key).Nodup
    ∧ (∀ e ∈ STANDARDS, e.files ≠ [])
    ∧ (∀ e ∈ STANDARDS,
        ¬ '/' ∈ e.outputFile.data ∧ ¬ '\\' ∈ e.outputFile.data)
    ∧ (STANDARDS_OLD.map OldCatalogEntry.key).Nodup
    ∧ (∀ e ∈ STANDARDS_OLD, e.files ≠ []) := by
  decide

/-- Claim C9: for every entry with more than one source path, the combined
output carries a separator block after every successfully fetched part —
it is the in-order concatenation of `content ++ separator` over the
successful parts — so whenever some part succeeded the document ends with
a trailing separator block labelled with the last successful part's path. -/
theorem claim_C9 (fetch : String → FetchResult) (files : List String)
    (hm : 1 < files.length) :
    (processEntry fetch files).combined = pairConcat (successParts fetch files)
    ∧ ∀ pt : String × String, (successParts fetch files).getLast? = some pt →
        ∃ s, (processEntry fetch files).combined = s ++ sepBlock pt.1 := by
  have hmulti : decide (1 < files.length) = true := decide_eq_true hm
  have hcomb : (processEntry fetch files).combined
      = pairConcat (successParts fetch files) := by
    unfold processEntry
    rw [hmulti, foldl_entry_combined, concatMap_contrib_eq_pairConcat]
    simp
  refine ⟨hcomb, ?_⟩
  intro pt hlast
  obtain ⟨s, hs⟩ := pairConcat_getLast (successParts fetch files) pt hlast
  exact ⟨s, by rw [hcomb, hs]⟩

/-- Witness for claim C9 on the two-part entry `(a, A), (b, B)`: the
combined output ends with the separator block labelled `b`. -/
theorem claim_C9_witness :
    1 < (["a", "b"] : List String).length
    ∧ (successParts fetchAB ["a", "b"]).getLast? = some ("b", "B")
    ∧ ∃ s, (processEntry fetchAB ["a", "b"]).combined = s ++ sepBlock "b" :=
  ⟨by decide, by decide,
   (claim_C9 fetchAB ["a", "b"] (by decide)).2 ("b", "B") (by decide)⟩

/-- Claim C10: after every run of the fetch loop over selected keys drawn
from the catalog, `successCount + failCount` equals the number of selected
keys, and `savedFiles` has exactly `successCount` elements (each iteration
bumps exactly one counter and appends to `savedFiles` exactly when it bumps
`successCount`). -/
theorem claim_C10 (fetch : String → FetchResult) (keys : List String)
    (hv : ∀ k ∈ keys, (findEntry k).isSome = true) :
    (mainFetchRun fetch keys).successCount + (mainFetchRun fetch keys).failCount
      = keys.length
    ∧ (mainFetchRun fetch keys).savedFiles.length
      = (mainFetchRun fetch keys).successCount := by
  cases keys with
  | nil => exact ⟨rfl, rfl⟩
  | cons k ks =>
    have e : mainFetchRun fetch (k :: ks)
        = (k :: ks).foldl (runEntryStep fetch) initOutcome := rfl
    obtain ⟨h1, h2⟩ := foldl_run_counts fetch (k :: ks) initOutcome hv
    rw [e]
    have i1 : initOutcome.successCount = 0 := rfl
    have i2 : initOutcome.failCount = 0 := rfl
    have i3 : initOutcome.savedFiles.length = 0 := rfl
    exact ⟨by omega, by omega⟩

/-- Witness for claim C10 on the selection `coding, seo` with every fetch
failing: 0 successes plus 2 failures equals the 2 selected keys, and no
file was saved. -/
theorem claim_C10_witness :
    (∀ k ∈ (["coding", "seo"] : List String), (findEntry k).isSome = true)
    ∧ (mainFetchRun fetchNone ["coding", "seo"]).successCount
        + (mainFetchRun fetchNone ["coding", "seo"]).failCount = 2
    ∧ (mainFetchRun fetchNone ["coding", "seo"]).savedFiles.length
        = (mainFetchRun fetchNone ["coding", "seo"]).successCount :=
  ⟨by decide,
   (claim_C10 fetchNone ["coding", "seo"] (by decide)).1,
   (claim_C10 fetchNone ["coding", "seo"] (by decide)).2⟩
